import Mathlib

/-!
Verification of the firmware-flashing core of the hds-updater repository:
offset resolution (`FileHandler.getFlashOffset`), image-set validation
(`FileHandler.validateFirmwareFiles`), write-plan construction
(`FileHandler.prepareFirmwareFiles`), override validation
(`App.validateOffset`), the flashing loop (`Flasher.flashFirmware`),
connection handling (`Flasher.connectDevice`) and progress accounting.

JavaScript strings are modelled as Lean `String`; `ArrayBuffer` payloads as
`List Nat` (byte values, only their length matters here); JS objects keyed
by filename as association lists in insertion order (matching
`Object.entries` enumeration order).
-/

namespace HDSUpdater

/-- `filename.toLowerCase()`: ASCII lowercasing of every character (all
patterns the code matches against are ASCII). -/
def lowerStr (s : String) : String :=
  ⟨s.data.map Char.toLower⟩

/-- Does the list start with the given pattern? (helper for `containsStr`). -/
def startsWithList : List Char → List Char → Bool
  | _, [] => true
  | [], _ :: _ => false
  | a :: as, b :: bs => a == b && startsWithList as bs

/-- Does the pattern occur as a contiguous sublist? (helper for `containsStr`). -/
def containsList (pat : List Char) : List Char → Bool
  | [] => startsWithList [] pat
  | a :: rest => startsWithList (a :: rest) pat || containsList pat rest

/-- `name.includes(pat)`: substring containment test. -/
def containsStr (s pat : String) : Bool :=
  containsList pat.data s.data

/-- `FileHandler.getFlashOffset` (fileHandler.js 88-112): map a filename to
its ESP32-S3 flash offset by case-insensitive substring rules, first match
wins, defaulting to 0x10000. -/
def getFlashOffset (filename : String) : Nat :=
  let name := lowerStr filename
  if containsStr name "bootloader" then 0x0000
  else if containsStr name "partition" then 0x8000
  else if containsStr name "boot_app0" then 0xe000
  else if containsStr name "firmware" || containsStr name "app" then 0x10000
  else if containsStr name "littlefs" || containsStr name "spiffs" || containsStr name "fs" then 0x290000
  else 0x10000

/-- The spec's ordered offset rule table (§4.1), without the claim's extra
`boot_app` alias: each row is the list of substring patterns and the offset. -/
def offsetRuleTable : List (List String × Nat) :=
  [(["bootloader"], 0x0000),
   (["partition"], 0x8000),
   (["boot_app0"], 0xe000),
   (["firmware", "app"], 0x10000),
   (["littlefs", "spiffs", "fs"], 0x290000)]

/-- The spec's `resolveAutoOffset`: first row of the ordered rule table one
of whose patterns occurs (case-insensitively) in the filename; 0x10000 when
no row matches. -/
def resolveAutoOffset (filename : String) : Nat :=
  match offsetRuleTable.find? (fun r => r.1.any (fun p => containsStr (lowerStr filename) p)) with
  | some r => r.2
  | none => 0x10000

/-- A write-plan entry (`{filename, offset, data}` in fileHandler.js). -/
structure Entry where
  filename : String
  offset : Nat
  data : List Nat
deriving DecidableEq, Repr

/-- The sort comparator of `prepareFirmwareFiles`
(`(a, b) => a.offset - b.offset`, i.e. ascending offset). -/
def entryLE (a b : Entry) : Bool :=
  decide (a.offset ≤ b.offset)

/-- `FileHandler.prepareFirmwareFiles` (fileHandler.js 119-134): build one
entry per input file with its auto-resolved offset and sort ascending by
offset.  The source performs no further checks and never fails. -/
def prepareFirmwareFiles (files : List (String × List Nat)) : List Entry :=
  ((files.map fun p => (⟨p.1, getFlashOffset p.1, p.2⟩ : Entry))).mergeSort entryLE

/-- The filename test of `validateFirmwareFiles`
(`name.toLowerCase().includes('firmware') || ...includes('app')`). -/
def isPrimaryName (name : String) : Bool :=
  containsStr (lowerStr name) "firmware" || containsStr (lowerStr name) "app"

/-- Result record returned by `FileHandler.validateFirmwareFiles`:
`{isValid, message}` plus the `files` key present on success. -/
structure FileValidation where
  isValid : Bool
  message : String
  files : Option (List String)
deriving DecidableEq, Repr

/-- `FileHandler.validateFirmwareFiles` (fileHandler.js 39-67). -/
def validateFirmwareFiles (files : List (String × List Nat)) : FileValidation :=
  let fileNames := files.map Prod.fst
  if fileNames.length = 0 then
    ⟨false, "No .bin files found in zip archive", none⟩
  else if !(fileNames.any isPrimaryName) then
    ⟨false, "No firmware.bin or app binary found in zip archive", none⟩
  else
    ⟨true, "Found " ++ toString fileNames.length ++ " firmware file(s): " ++
      String.intercalate ", " fileNames, some fileNames⟩

/-- The spec's three-way gate over an image set: empty-set error,
missing-primary-image error, or valid (§4.2 of the spec). -/
inductive ImageSetCheck where
  | emptyImageSetError
  | noPrimaryImageError
  | valid
deriving DecidableEq, Repr

/-- Spec-side classification of an image set by its filename list. -/
def imageSetCheck (names : List String) : ImageSetCheck :=
  if names.isEmpty then .emptyImageSetError
  else if !(names.any isPrimaryName) then .noPrimaryImageError
  else .valid

/-- The spec's adjacent-pair overlap scan over an offset-sorted plan:
report the first pair with `entry[i].offset + len(entry[i].bytes) >
entry[i+1].offset`, naming both files. -/
def findOverlap : List Entry → Option (String × String)
  | a :: b :: rest =>
    if a.offset + a.data.length > b.offset then some (a.filename, b.filename)
    else findOverlap (b :: rest)
  | _ => none

/-- The spec's `OverlappingRegionsError{filenameA, filenameB}`. -/
inductive PlanError where
  | overlappingRegions (filenameA filenameB : String)
deriving DecidableEq, Repr

/-- The offset-assignment rule of the custom-offsets path: the committed
override for the filename when present, the auto-resolved offset otherwise. -/
def assignedOffset (customOffsets : List (String × Nat)) (name : String) : Nat :=
  match customOffsets.find? (fun q => q.1 == name) with
  | some q => q.2
  | none => getFlashOffset name

/-- Modelled from the spec: the entry list of the custom-offsets path — one
entry per file with its assigned (override-or-auto) offset, sorted ascending
by offset. -/
def customEntries (files : List (String × List Nat))
    (customOffsets : List (String × Nat)) : List Entry :=
  (files.map fun p => (⟨p.1, assignedOffset customOffsets p.1, p.2⟩ : Entry)).mergeSort entryLE

/-- Modelled from the spec: `FileHandler.prepareFirmwareFilesWithCustomOffsets`
is called from `App.onFlash` (main.js 197) but its definition is absent from
the available source, so it is modelled from spec §4.2: assign each file its
override offset when present else the auto offset, build entries, sort
ascending by offset, then scan adjacent pairs for range overlap and fail with
`OverlappingRegionsError` naming both files when one is found. -/
def prepareFirmwareFilesWithCustomOffsets (files : List (String × List Nat))
    (customOffsets : List (String × Nat)) : Except PlanError (List Entry) :=
  match findOverlap (customEntries files customOffsets) with
  | some ab => .error (.overlappingRegions ab.1 ab.2)
  | none => .ok (customEntries files customOffsets)

/-- Result record of `App.validateOffset` (main.js):
`{isValid, type, message}` with `type` one of
`"none" | "success" | "warning" | "error"`. -/
structure ValidationResult where
  isValid : Bool
  type : String
  message : String
deriving DecidableEq, Repr

/-- `value.trim() === ''` (also covering JS falsiness of the empty string):
every character is whitespace. -/
def isBlank (value : String) : Bool :=
  value.data.all Char.isWhitespace

/-- One character of the `[0-9A-Fa-f]` regex class. -/
def isHexDigitChar (c : Char) : Bool :=
  c.isDigit || ('a' ≤ c && c ≤ 'f') || ('A' ≤ c && c ≤ 'F')

/-- The anchored regex `^0x[0-9A-Fa-f]+$` of `App.validateOffset`. -/
def matchesHexPattern (value : String) : Bool :=
  match value.data with
  | '0' :: 'x' :: rest => !rest.isEmpty && rest.all isHexDigitChar
  | _ => false

/-- Numeric value of one hex digit. -/
def hexDigitVal (c : Char) : Nat :=
  if c.isDigit then c.toNat - '0'.toNat
  else if 'a' ≤ c && c ≤ 'f' then c.toNat - 'a'.toNat + 10
  else if 'A' ≤ c && c ≤ 'F' then c.toNat - 'A'.toNat + 10
  else 0

/-- `parseInt(value, 16)` on a string of the form `0x` + hex digits
(the only form it is applied to after the pattern check); the result of
parsing hex digits is always nonnegative. -/
def parseHex (value : String) : Nat :=
  let digits := match value.data with
    | '0' :: 'x' :: rest => rest
    | l => l
  digits.foldl (fun acc c => acc * 16 + hexDigitVal c) 0

/-- `App.validateOffset` (main.js 342-391): validate a raw custom-offset
string for a file against the committed overrides, rules applied in source
order.  The source's `offset < 0x0` arm of the range check can never fire
(a parsed hex string is nonnegative), so only the upper bound remains. -/
def validateOffset (filename value : String)
    (customOffsets : List (String × Nat)) : ValidationResult :=
  if isBlank value then ⟨true, "none", ""⟩
  else if !matchesHexPattern value then
    ⟨false, "error", "Invalid format. Use hex with 0x prefix (e.g., 0x10000)"⟩
  else
    let offset := parseHex value
    if offset > 0x400000 then
      ⟨false, "error", "Offset out of range (0x0 to 0x400000)"⟩
    else
      match customOffsets.find? (fun p => p.1 != filename && p.2 == offset) with
      | some p => ⟨false, "error", "Duplicate offset (conflicts with " ++ p.1 ++ ")"⟩
      | none =>
        if offset % 0x1000 != 0 then
          ⟨true, "warning", "Warning: Not aligned to 4KB sector (0x1000)"⟩
        else ⟨true, "success", ""⟩

/-- First rule of an ordered rule list that fires (helper for the spec's
`validateOverride`, whose rules are "applied in order, first failure
short-circuits"). -/
def firstSome : List (Option ValidationResult) → Option ValidationResult
  | [] => none
  | some r :: _ => some r
  | none :: rest => firstSome rest

/-- The spec's `validateOverride` (§4.1), written as an ordered rule list:
1 blank means "use auto"; 2 hex-with-prefix format; 3 range
`0 <= offset <= 0x400000`; 4 no duplicate of another file's committed
override; 5 sector-alignment warning; 6 success. -/
def validateOverride (filename raw : String)
    (existingOverrides : List (String × Nat)) : ValidationResult :=
  let offset := parseHex raw
  let rules : List (Option ValidationResult) :=
    [if isBlank raw then some ⟨true, "none", ""⟩ else none,
     if !matchesHexPattern raw then
       some ⟨false, "error", "Invalid format. Use hex with 0x prefix (e.g., 0x10000)"⟩
     else none,
     if !(offset ≤ 0x400000) then
       some ⟨false, "error", "Offset out of range (0x0 to 0x400000)"⟩
     else none,
     match existingOverrides.find? (fun p => p.1 != filename && p.2 == offset) with
     | some p => some ⟨false, "error", "Duplicate offset (conflicts with " ++ p.1 ++ ")"⟩
     | none => none,
     if offset % 0x1000 != 0 then
       some ⟨true, "warning", "Warning: Not aligned to 4KB sector (0x1000)"⟩
     else none]
  (firstSome rules).getD ⟨true, "success", ""⟩

/-- The mutable fields of the `Flasher` singleton (flasher.js 6-11); the
object-valued fields (`device`, `transport`, `chip`, `esploader`) are
modelled by whether they currently hold a value (`true`) or `null`. -/
structure SessionState where
  device : Bool
  transport : Bool
  chip : Bool
  esploader : Bool
  connected : Bool
deriving DecidableEq, Repr

/-- The all-`null`, disconnected initial `Flasher` state. -/
def initialSession : SessionState :=
  ⟨false, false, false, false, false⟩

/-- Environment of one `connectDevice` call: which of the four externally
determined steps succeed (Web Serial availability, the user granting a port,
the esptool-js library being loaded, and the `esploader.main()` handshake). -/
structure ConnectEnv where
  serialSupported : Bool
  portGranted : Bool
  esptoolLoaded : Bool
  handshakeOk : Bool
deriving DecidableEq, Repr

/-- `Flasher.connectDevice` (flasher.js 17-69): the returned state is the
`Flasher` fields after the call, the `Except` the thrown error or the chip
info (abstracted to `Unit`).  The `catch` block sets `connected = false` and
rethrows; it does not touch the other fields, so fields assigned before the
throwing step keep their values. -/
def connectDevice (st : SessionState) (env : ConnectEnv) :
    SessionState × Except String Unit :=
  if !env.serialSupported then
    ({ st with connected := false },
     .error "Web Serial API is not supported in this browser. Please use Chrome, Edge, or Opera.")
  else if !env.portGranted then
    ({ st with connected := false }, .error "Failed to connect: no port selected")
  else if !env.esptoolLoaded then
    ({ st with connected := false },
     .error "esptool-js library not loaded yet. Please wait and try again.")
  else
    let st1 := { st with transport := true, device := true, esploader := true }
    if !env.handshakeOk then
      ({ st1 with connected := false }, .error "Failed to connect: handshake failed")
    else
      ({ st1 with connected := true, chip := true }, .ok ())

/-- The per-file write loop of `Flasher.flashFirmware` (flasher.js 164-201):
`writeOk` says whether the engine's `writeFlash` succeeds for a filename.
Returns the filenames whose write was attempted, in attempt order, and the
result (the first failure aborts the remaining plan and the error message
names the failed file, as logged by `Failed to flash ...`). -/
def flashLoop (writeOk : String → Bool) : List Entry → List String × Except String Unit
  | [] => ([], .ok ())
  | e :: rest =>
    if writeOk e.filename then
      let r := flashLoop writeOk rest
      (e.filename :: r.1, r.2)
    else ([e.filename], .error ("Failed to flash " ++ e.filename))

/-- `Flasher.flashFirmware` (flasher.js 115-227): the connection guard
(`!this.connected || !this.esploader`) throws `Device not connected` before
any write; otherwise the entries are written in plan order. -/
def flashFirmware (st : SessionState) (plan : List Entry)
    (writeOk : String → Bool) : List String × Except String Unit :=
  if !st.connected || !st.esploader then ([], .error "Device not connected")
  else flashLoop writeOk plan

/-- `writtenSize` in `Flasher.flashFirmware`: total bytes of the files
preceding the current one in the plan. -/
def prefixSize : List Nat → Nat → Nat
  | _, 0 => 0
  | [], _ + 1 => 0
  | s :: rest, i + 1 => s + prefixSize rest i

/-- The overall progress value passed to the progress callback
(flasher.js 179-191): `(writtenSize + written) / totalSize * 100`, where
`sizes` are the plan's file sizes, file `i` is being written and `w` bytes
of it are done. -/
def overallProgress (sizes : List Nat) (i w : Nat) : ℚ :=
  ((prefixSize sizes i + w : ℚ) / (sizes.sum : ℚ)) * 100

/-- `App.updateProgress` (main.js 225-234): the displayed percentage is the
callback value clamped to `[0, 100]` via `Math.min(100, Math.max(0, p))`. -/
def updateProgressClamp (p : ℚ) : ℚ :=
  min 100 (max 0 p)

/-! ## Helper lemmas -/

theorem entryLE_trans : ∀ a b c : Entry, entryLE a b → entryLE b c → entryLE a c := by
  intro a b c hab hbc
  simp only [entryLE, decide_eq_true_eq] at *
  omega

theorem entryLE_total : ∀ a b : Entry, entryLE a b || entryLE b a := by
  intro a b
  simp only [entryLE, Bool.or_eq_true, decide_eq_true_eq]
  omega

theorem prepare_filenames_perm (files : List (String × List Nat)) :
    ((prepareFirmwareFiles files).map Entry.filename).Perm (files.map Prod.fst) := by
  unfold prepareFirmwareFiles
  have hp := (List.mergeSort_perm
    (files.map fun p => (⟨p.1, getFlashOffset p.1, p.2⟩ : Entry)) entryLE).map Entry.filename
  have hrw : (files.map fun p => (⟨p.1, getFlashOffset p.1, p.2⟩ : Entry)).map Entry.filename =
      files.map Prod.fst := by
    rw [List.map_map]
    rfl
  rwa [hrw] at hp

theorem prepare_sorted (files : List (String × List Nat)) :
    (prepareFirmwareFiles files).Pairwise (fun a b => a.offset ≤ b.offset) := by
  unfold prepareFirmwareFiles
  have hs := @List.sorted_mergeSort Entry entryLE entryLE_trans entryLE_total
    (files.map fun p => (⟨p.1, getFlashOffset p.1, p.2⟩ : Entry))
  exact hs.imp (fun h => by simpa [entryLE] using h)

theorem flashLoop_fail_fast (writeOk : String → Bool) (pre : List Entry) (e : Entry)
    (post : List Entry) (hpre : ∀ f ∈ pre, writeOk f.filename = true)
    (hf : writeOk e.filename = false) :
    flashLoop writeOk (pre ++ e :: post) =
      (pre.map Entry.filename ++ [e.filename], .error ("Failed to flash " ++ e.filename)) := by
  revert hpre
  induction pre with
  | nil => intro _; simp [flashLoop, hf]
  | cons a rest ih =>
    intro hpre
    have ha : writeOk a.filename = true := hpre a (by simp)
    simp [flashLoop, ha, ih (fun f hmem => hpre f (by simp [hmem]))]

theorem prefixSize_succ (sizes : List Nat) (i : Nat) (hi : i < sizes.length) :
    prefixSize sizes (i + 1) = prefixSize sizes i + sizes[i] := by
  induction sizes generalizing i with
  | nil => simp at hi
  | cons s rest ih =>
    cases i with
    | zero => simp [prefixSize]
    | succ j =>
      have hj : j < rest.length := by simpa using hi
      simp only [prefixSize, List.getElem_cons_succ, ih j hj]
      omega

theorem prefixSize_le_sum (sizes : List Nat) (i : Nat) :
    prefixSize sizes i ≤ sizes.sum := by
  induction sizes generalizing i with
  | nil => cases i <;> simp [prefixSize]
  | cons s rest ih =>
    cases i with
    | zero => simp [prefixSize]
    | succ j =>
      have := ih j
      simp only [prefixSize, List.sum_cons]
      omega

theorem prefixSize_mono (sizes : List Nat) {i j : Nat} (h : i ≤ j) :
    prefixSize sizes i ≤ prefixSize sizes j := by
  induction sizes generalizing i j with
  | nil => cases i <;> cases j <;> simp [prefixSize]
  | cons s rest ih =>
    cases i with
    | zero =>
      cases j with
      | zero => exact Nat.le_refl _
      | succ j0 => simp [prefixSize]
    | succ i0 =>
      cases j with
      | zero => omega
      | succ j0 =>
        have := ih (show i0 ≤ j0 by omega)
        simp only [prefixSize]
        omega

/-! ## Claim theorems -/

/-- C1 (counterexample): the claim says a filename containing `boot_app`
maps to 0xE000, but `"boot_app.bin"` (which contains `boot_app` yet not
`boot_app0`) falls through to the `app` rule and gets 0x10000. -/
theorem c1_boot_app_counterexample :
    containsStr (lowerStr "boot_app.bin") "boot_app" = true
    ∧ containsStr (lowerStr "boot_app.bin") "boot_app0" = false
    ∧ getFlashOffset "boot_app.bin" = 0x10000
    ∧ getFlashOffset "boot_app.bin" ≠ 0xe000 := by decide

/-- C1 (amended): for every filename, `getFlashOffset` agrees with the
spec's ordered, case-insensitive, first-match-wins rule table whose third
rule matches only `boot_app0` (a name containing the bare `boot_app` falls
through to the `firmware`/`app` rule): `bootloader` 0x0000, `partition`
0x8000, `boot_app0` 0xE000, `firmware`/`app` 0x10000,
`littlefs`/`spiffs`/`fs` 0x290000, default 0x10000. -/
theorem c1_getFlashOffset_eq_resolveAutoOffset (s : String) :
    getFlashOffset s = resolveAutoOffset s := by
  unfold getFlashOffset resolveAutoOffset offsetRuleTable
  simp only [List.find?, List.any_cons, List.any_nil, Bool.or_false]
  cases h1 : containsStr (lowerStr s) "bootloader" <;>
  cases h2 : containsStr (lowerStr s) "partition" <;>
  cases h3 : containsStr (lowerStr s) "boot_app0" <;>
  cases h4 : containsStr (lowerStr s) "firmware" <;>
  cases h5 : containsStr (lowerStr s) "app" <;>
  cases h6 : containsStr (lowerStr s) "littlefs" <;>
  cases h7 : containsStr (lowerStr s) "spiffs" <;>
  cases h8 : containsStr (lowerStr s) "fs" <;>
  simp [h1, h2, h3, h4, h5, h6, h7, h8]

/-- The two-`app` image set is auto-assigned overlapping ranges yet still
yields this write plan (helper computation shared by the C2 theorems). -/
theorem prepare_overlapping_example :
    prepareFirmwareFiles [("app1.bin", [0]), ("app2.bin", [0])] =
      [⟨"app1.bin", 0x10000, [0]⟩, ⟨"app2.bin", 0x10000, [0]⟩] := by
  unfold prepareFirmwareFiles
  have hmap : ([("app1.bin", ([0] : List Nat)), ("app2.bin", [0])].map
      fun p => (⟨p.1, getFlashOffset p.1, p.2⟩ : Entry)) =
      [⟨"app1.bin", 0x10000, [0]⟩, ⟨"app2.bin", 0x10000, [0]⟩] := by decide
  rw [hmap, List.mergeSort_of_sorted
    (show ([(⟨"app1.bin", 0x10000, [0]⟩ : Entry),
      ⟨"app2.bin", 0x10000, [0]⟩]).Pairwise (fun a b => entryLE a b = true) by decide)]

/-- C2 (counterexample): `app1.bin` and `app2.bin` are both auto-assigned
0x10000, so their one-byte ranges overlap, yet `prepareFirmwareFiles`
returns a write plan for them (it can never fail) and that plan fails the
spec's adjacent-pair overlap scan — no overlap error blocks flashing. -/
theorem c2_overlap_counterexample :
    prepareFirmwareFiles [("app1.bin", [0]), ("app2.bin", [0])] =
      [⟨"app1.bin", 0x10000, [0]⟩, ⟨"app2.bin", 0x10000, [0]⟩]
    ∧ findOverlap [⟨"app1.bin", 0x10000, [0]⟩, ⟨"app2.bin", 0x10000, [0]⟩] =
        some ("app1.bin", "app2.bin") :=
  ⟨prepare_overlapping_example, by decide⟩

/-- C2 (amended): `prepareFirmwareFiles` performs no overlap detection and
rejects no image set: every set — overlapping assigned ranges included —
yields a plan with exactly one entry per input file, as the overlapping
two-file set above concretely shows. -/
theorem c2_no_overlap_rejection :
    (∀ files : List (String × List Nat),
      ((prepareFirmwareFiles files).map Entry.filename).Perm (files.map Prod.fst))
    ∧ findOverlap (prepareFirmwareFiles [("app1.bin", [0]), ("app2.bin", [0])]) =
        some ("app1.bin", "app2.bin") :=
  ⟨prepare_filenames_perm, by rw [prepare_overlapping_example]; decide⟩

/-- C3: the custom-offsets preparation step (modelled from the spec, see
`prepareFirmwareFilesWithCustomOffsets`) assigns every file its committed
override offset when one is present and the auto-resolved offset otherwise;
whenever it returns a write plan, the plan has exactly one entry per input
file and each entry carries exactly that assigned offset. -/
theorem c3_custom_offsets_assignment (files : List (String × List Nat))
    (customOffsets : List (String × Nat)) (plan : List Entry)
    (h : prepareFirmwareFilesWithCustomOffsets files customOffsets = .ok plan) :
    (plan.map Entry.filename).Perm (files.map Prod.fst)
    ∧ ∀ e ∈ plan, e.offset = assignedOffset customOffsets e.filename := by
  unfold prepareFirmwareFilesWithCustomOffsets at h
  cases hov : findOverlap (customEntries files customOffsets) with
  | some ab => rw [hov] at h; cases h
  | none =>
    rw [hov] at h
    have hplan : plan = customEntries files customOffsets := by
      cases h
      rfl
    subst hplan
    constructor
    · unfold customEntries
      have hp := (List.mergeSort_perm
        (files.map fun p => (⟨p.1, assignedOffset customOffsets p.1, p.2⟩ : Entry))
        entryLE).map Entry.filename
      have hrw : (files.map fun p =>
          (⟨p.1, assignedOffset customOffsets p.1, p.2⟩ : Entry)).map Entry.filename =
          files.map Prod.fst := by
        rw [List.map_map]
        rfl
      rwa [hrw] at hp
    · intro e he
      unfold customEntries at he
      rw [List.mem_mergeSort] at he
      obtain ⟨p, hp, rfl⟩ := List.mem_map.mp he
      rfl

/-- C3 (witness): a firmware file with a committed override 0x20000 yields
the plan with exactly that offset. -/
theorem c3_witness :
    (([⟨"firmware.bin", 0x20000, [0]⟩] : List Entry).map Entry.filename).Perm
      ([("firmware.bin", ([0] : List Nat))].map Prod.fst)
    ∧ ∀ e ∈ ([⟨"firmware.bin", 0x20000, [0]⟩] : List Entry),
        e.offset = assignedOffset [("firmware.bin", 0x20000)] e.filename :=
  c3_custom_offsets_assignment [("firmware.bin", [0])] [("firmware.bin", 0x20000)]
    [⟨"firmware.bin", 0x20000, [0]⟩] (by
      unfold prepareFirmwareFilesWithCustomOffsets customEntries
      have hmap : ([("firmware.bin", ([0] : List Nat))].map
          fun p => (⟨p.1, assignedOffset [("firmware.bin", 0x20000)] p.1, p.2⟩ : Entry)) =
          [⟨"firmware.bin", 0x20000, [0]⟩] := by decide
      rw [hmap, List.mergeSort_of_sorted
        (show ([(⟨"firmware.bin", 0x20000, [0]⟩ : Entry)]).Pairwise
          (fun a b => entryLE a b = true) by decide)]
      rfl)

/-- C4: for every image set that passes validation, the plan returned by
`prepareFirmwareFiles` has exactly one entry per input file (its filename
list is a permutation of the input filenames) and is sorted ascending by
assigned offset. -/
theorem c4_plan_sorted_one_entry_per_file (files : List (String × List Nat))
    (_hv : (validateFirmwareFiles files).isValid = true) :
    ((prepareFirmwareFiles files).map Entry.filename).Perm (files.map Prod.fst)
    ∧ (prepareFirmwareFiles files).Pairwise (fun a b => a.offset ≤ b.offset) :=
  ⟨prepare_filenames_perm files, prepare_sorted files⟩

/-- C4 (witness): the `{bootloader.bin, firmware.bin}` set passes validation
and its plan is complete and offset-sorted (bootloader at 0x0000 first). -/
theorem c4_witness :
    ((prepareFirmwareFiles [("bootloader.bin", [0]), ("firmware.bin", [0])]).map
      Entry.filename).Perm ([("bootloader.bin", ([0] : List Nat)),
        ("firmware.bin", [0])].map Prod.fst)
    ∧ (prepareFirmwareFiles [("bootloader.bin", [0]), ("firmware.bin", [0])]).Pairwise
        (fun a b => a.offset ≤ b.offset) :=
  c4_plan_sorted_one_entry_per_file [("bootloader.bin", [0]), ("firmware.bin", [0])]
    (by decide)

/-- C5: for every filename, raw override string and committed-override map,
`App.validateOffset` returns exactly what the spec's ordered short-circuit
rule list `validateOverride` prescribes: blank is valid/none, bad format is
an error, a parsed value above 0x400000 is an out-of-range error, a value
equal to another file's committed override is a duplicate error naming that
file, a misaligned value is valid with a warning, anything else succeeds. -/
theorem c5_validateOffset_eq_validateOverride (filename value : String)
    (customOffsets : List (String × Nat)) :
    validateOffset filename value customOffsets =
      validateOverride filename value customOffsets := by
  unfold validateOffset validateOverride
  cases hb : isBlank value
  · cases hp : matchesHexPattern value
    · simp [hb, hp, firstSome]
    · by_cases hr : parseHex value ≤ 0x400000
      · cases hd : customOffsets.find? (fun p => p.1 != filename && p.2 == parseHex value) with
        | some pdup => simp [hb, hp, hd, firstSome, Nat.not_lt.mpr hr, hr]
        | none =>
          by_cases ha : parseHex value % 0x1000 = 0
          · simp [hb, hp, hd, firstSome, ha, Nat.not_lt.mpr hr, hr]
          · simp [hb, hp, hd, firstSome, ha, Nat.not_lt.mpr hr, hr]
      · have hgt : 0x400000 < parseHex value := Nat.not_le.mp hr
        simp [hb, hp, firstSome, hgt, hr]
  · simp [hb, firstSome]

/-- C6: validation of an image set is exactly the spec's three-way gate:
an empty set yields the empty-set error, a set with no firmware/app-matching
filename yields the missing-primary-image error, and otherwise validation
passes; in particular the set is valid precisely when some filename matches
the firmware/app pattern. -/
theorem c6_validateFirmwareFiles_classification (files : List (String × List Nat)) :
    (validateFirmwareFiles files =
      match imageSetCheck (files.map Prod.fst) with
      | .emptyImageSetError => ⟨false, "No .bin files found in zip archive", none⟩
      | .noPrimaryImageError =>
          ⟨false, "No firmware.bin or app binary found in zip archive", none⟩
      | .valid => ⟨true, "Found " ++ toString (files.map Prod.fst).length ++
          " firmware file(s): " ++ String.intercalate ", " (files.map Prod.fst),
          some (files.map Prod.fst)⟩)
    ∧ (validateFirmwareFiles files).isValid = (files.map Prod.fst).any isPrimaryName := by
  unfold validateFirmwareFiles imageSetCheck
  cases files with
  | nil => simp
  | cons a rest =>
    cases h : isPrimaryName a.1 <;>
      cases h2 : (rest.map Prod.fst).any isPrimaryName <;>
        simp [h, h2]

/-- C7: with a connected session, the write loop attempts the plan's entries
strictly in the given order; when the write of one entry fails after every
earlier entry succeeded, exactly the entries up to and including the failed
one are attempted (none after it) and the surfaced error names the failed
file. -/
theorem c7_flash_fail_fast (st : SessionState) (writeOk : String → Bool)
    (pre : List Entry) (e : Entry) (post : List Entry)
    (hc : st.connected = true) (he : st.esploader = true)
    (hpre : ∀ f ∈ pre, writeOk f.filename = true)
    (hf : writeOk e.filename = false) :
    flashFirmware st (pre ++ e :: post) writeOk =
      (pre.map Entry.filename ++ [e.filename],
       .error ("Failed to flash " ++ e.filename)) := by
  unfold flashFirmware
  rw [hc, he]
  simpa using flashLoop_fail_fast writeOk pre e post hpre hf

/-- C7 (witness): in a three-file plan whose second write fails, exactly the
first two files are attempted, in order, and the error names the second. -/
theorem c7_witness :
    flashFirmware ⟨true, true, true, true, true⟩
      [⟨"a.bin", 0x0, [0]⟩, ⟨"b.bin", 0x8000, [0]⟩, ⟨"c.bin", 0x10000, [0]⟩]
      (fun n => n == "a.bin") =
      (["a.bin", "b.bin"], .error "Failed to flash b.bin") :=
  c7_flash_fail_fast ⟨true, true, true, true, true⟩ (fun n => n == "a.bin")
    [⟨"a.bin", 0x0, [0]⟩] ⟨"b.bin", 0x8000, [0]⟩ [⟨"c.bin", 0x10000, [0]⟩]
    rfl rfl (by decide) (by decide)

/-- C8: the overall progress value handed to the progress callback is
cumulative-bytes-written over total-plan-bytes times 100; it already lies in
`[0, 100]` (so the UI clamp returns it unchanged) and it is monotonically
non-decreasing across successive callback invocations — later file index, or
same file with at least as many bytes written, never lowers it. -/
theorem c8_progress_clamped_monotone (sizes : List Nat) (i w i' w' : Nat)
    (hi : i < sizes.length) (hw : w ≤ sizes[i])
    (hi' : i' < sizes.length) (hw' : w' ≤ sizes[i'])
    (hpos : 0 < sizes.sum)
    (hord : i < i' ∨ (i = i' ∧ w ≤ w')) :
    updateProgressClamp (overallProgress sizes i w) = overallProgress sizes i w
    ∧ overallProgress sizes i w ≤ overallProgress sizes i' w' := by
  have hnum1 : prefixSize sizes i + w ≤ sizes.sum := by
    have hs := prefixSize_succ sizes i hi
    have hle := prefixSize_le_sum sizes (i + 1)
    omega
  have hnum2 : prefixSize sizes i' + w' ≤ sizes.sum := by
    have hs := prefixSize_succ sizes i' hi'
    have hle := prefixSize_le_sum sizes (i' + 1)
    omega
  have hord' : prefixSize sizes i + w ≤ prefixSize sizes i' + w' := by
    rcases hord with hlt | ⟨heq, hle⟩
    · have hm : prefixSize sizes (i + 1) ≤ prefixSize sizes i' :=
        prefixSize_mono sizes hlt
      have hs := prefixSize_succ sizes i hi
      omega
    · subst heq
      omega
  have hTpos : (0 : ℚ) < (sizes.sum : ℚ) := by exact_mod_cast hpos
  have h0 : (0 : ℚ) ≤ overallProgress sizes i w := by
    unfold overallProgress
    positivity
  have h100 : overallProgress sizes i w ≤ 100 := by
    unfold overallProgress
    rw [div_mul_eq_mul_div, div_le_iff₀ hTpos]
    have hc : ((prefixSize sizes i : ℚ) + (w : ℚ)) ≤ (sizes.sum : ℚ) := by
      exact_mod_cast hnum1
    linarith
  have hmono : overallProgress sizes i w ≤ overallProgress sizes i' w' := by
    unfold overallProgress
    have hq : ((prefixSize sizes i : ℚ) + (w : ℚ)) ≤
        ((prefixSize sizes i' : ℚ) + (w' : ℚ)) := by exact_mod_cast hord'
    have hdiv := (div_le_div_iff_of_pos_right hTpos).mpr hq
    exact mul_le_mul_of_nonneg_right hdiv (by norm_num)
  refine ⟨?_, hmono⟩
  unfold updateProgressClamp
  rw [max_eq_right h0, min_eq_right h100]

/-- C8 (witness): for the `[100, 200, 300]`-byte plan, the value after file 1
completes (100 of 600 bytes) is below the value when file 2 reports 50 of 200
bytes, which equals 25; both pass through the clamp unchanged. -/
theorem c8_witness :
    (updateProgressClamp (overallProgress [100, 200, 300] 0 100) =
        overallProgress [100, 200, 300] 0 100
      ∧ overallProgress [100, 200, 300] 0 100 ≤ overallProgress [100, 200, 300] 1 50)
    ∧ overallProgress [100, 200, 300] 1 50 = 25 :=
  ⟨c8_progress_clamped_monotone [100, 200, 300] 0 100 1 50 (by decide) (by decide)
      (by decide) (by decide) (by decide) (by omega),
   by
    have h1 : prefixSize [100, 200, 300] 1 = 100 := rfl
    have h2 : ([100, 200, 300] : List Nat).sum = 600 := rfl
    unfold overallProgress
    rw [h1, h2]
    norm_num⟩

/-- C9 (code bug): a handshake failure in `connectDevice` after the
transport and loader were created leaves `connected = false` but retains
the transport and loader handles — the `catch` block (flasher.js 65-68)
only clears `connected`, so the claimed release of the transport handle
does not happen. -/
theorem c9_handshake_failure_retains_transport :
    (connectDevice initialSession ⟨true, true, true, false⟩).1.connected = false
    ∧ (connectDevice initialSession ⟨true, true, true, false⟩).1.transport = true
    ∧ (connectDevice initialSession ⟨true, true, true, false⟩).1.esploader = true
    ∧ (connectDevice initialSession ⟨true, true, true, false⟩).2 =
        .error "Failed to connect: handshake failed" :=
  ⟨rfl, rfl, rfl, rfl⟩

/-- C10: whenever the session's connected flag is false or no loader
instance exists, `flashFirmware` fails with `Device not connected` and
attempts no write at all. -/
theorem c10_not_connected_guard (st : SessionState) (plan : List Entry)
    (writeOk : String → Bool)
    (h : st.connected = false ∨ st.esploader = false) :
    flashFirmware st plan writeOk = ([], .error "Device not connected") := by
  unfold flashFirmware
  rcases h with h | h <;> simp [h]

/-- C10 (witness): flashing a one-file plan from the initial disconnected
state throws `Device not connected` with no file attempted, even though the
engine write itself would succeed. -/
theorem c10_witness :
    flashFirmware initialSession [⟨"firmware.bin", 0x10000, [0]⟩] (fun _ => true) =
      ([], .error "Device not connected") :=
  c10_not_connected_guard initialSession [⟨"firmware.bin", 0x10000, [0]⟩]
    (fun _ => true) (Or.inl rfl)

end HDSUpdater
